import Mathlib

/-!
Verification of the repository's CI housekeeping scripts against their
natural-language specification.

The development shallowly embeds two Python scripts:

* `.rhiza/scripts/check_managed_files.py` (the managed-file guard): pure
  functions over the script's inputs, with the subprocess calls to the
  version-control system abstracted as explicit query results / oracles.
* `.rhiza/scripts/validate_template_bundles.py` (the bundle validator):
  functions over a `Yaml` value type, returning `Except PyErr (List String)`
  so that a Python runtime exception (`TypeError` and friends) is an explicit
  `.error` outcome rather than an implicit crash.
-/

/-! ## Embedding of check_managed_files.py -/

/-- Python `str.strip()`: drop leading and trailing whitespace (written at
the character level so that it evaluates by kernel reduction). -/
def pyStrip (s : String) : String :=
  String.mk (((s.data.dropWhile Char.isWhitespace).reverse.dropWhile
    Char.isWhitespace).reverse)

/-- Python `str.startswith(pre)` (written at the character level so that it
evaluates by kernel reduction). -/
def pyStartsWith (s pre : String) : Bool :=
  pre.data.isPrefixOf s.data

/-- Result of a completed `subprocess.run` call: the process exit code and its
captured standard output.  A call that raised an exception instead of
completing is represented by `none` at use sites (`Option RunResult`). -/
structure RunResult where
  returncode : Int
  stdout : String
deriving Repr, DecidableEq

/-- `git status --porcelain <path>` / `git diff --name-only <range> -- <path>`
interpretation used by the script: the query counts as a hit when the process
exited with code 0 and printed something that is non-empty after stripping
whitespace.  A raised exception (`none`) is never a hit. -/
def runHit (res : Option RunResult) : Bool :=
  match res with
  | some r => r.returncode == 0 && pyStrip r.stdout != ""
  | none => false

/-- Python truthiness of an optional environment-variable / string value:
`None` and the empty string are falsy, every other string is truthy. -/
def truthyOpt (v : Option String) : Bool :=
  match v with
  | some s => s != ""
  | none => false

/-- Embedding of `is_modified(file_path, base_ref)`.

The two subprocess invocations are passed in as their observed results:
`statusRes` is the outcome of `git status --porcelain <path>` and `diffRes`
the outcome of `git diff --name-only <base_ref>...HEAD -- <path>`; `none`
means the call raised an exception (which the script catches and ignores).
`ciVar` is the value of the `CI` environment variable (`none` when unset).

Step 1 checks the working tree / index; step 2 is attempted only when
`base_ref` is truthy and the `CI` variable is truthy. -/
def is_modified (statusRes : Option RunResult) (base_ref : Option String)
    (ciVar : Option String) (diffRes : Option RunResult) : Bool :=
  -- 1. Check working tree/index status (an exception is swallowed)
  if runHit statusRes then true
  else
    -- 2. Check committed changes relative to base (ONLY IN CI)
    if truthyOpt base_ref && truthyOpt ciVar then runHit diffRes
    else false

/-- Modelled from the spec: the "conservative variant" of the working-tree
check described in §7 of the specification, in which a failure of the
version-control query is treated as "assume modified" (fail-closed).  This
variant is not present in the repository's code; it is written down only to
be compared with `is_modified`. -/
def is_modified_fail_closed (statusRes : Option RunResult) (base_ref : Option String)
    (ciVar : Option String) (diffRes : Option RunResult) : Bool :=
  match statusRes with
  | none => true
  | some _ =>
    if runHit statusRes then true
    else
      if truthyOpt base_ref && truthyOpt ciVar then runHit diffRes
      else false

/-- Candidate list built by `get_base_ref()`: the fixed conventional branch
names, with `GITHUB_BASE_REF` and `origin/GITHUB_BASE_REF` inserted at the
front (in that order) when the variable is truthy. -/
def buildCandidates (github_base : Option String) : List String :=
  -- Common base branches
  let candidates := ["origin/main", "origin/master", "main", "master"]
  match github_base with
  | some gb =>
    if gb != "" then gb :: ("origin/" ++ gb) :: candidates
    else candidates
  | none => candidates

/-- The loop of `get_base_ref()`: return the first candidate for which
`git rev-parse --verify` succeeds (`verifies r = true`), else `none`. -/
def firstVerified (verifies : String → Bool) : List String → Option String
  | [] => none
  | r :: rest => if verifies r then some r else firstVerified verifies rest

/-- Embedding of `get_base_ref()`: `github_base` is the value of the
`GITHUB_BASE_REF` environment variable, `verifies r` tells whether
`git rev-parse --verify r` exits successfully. -/
def get_base_ref (github_base : Option String) (verifies : String → Bool) :
    Option String :=
  firstVerified verifies (buildCandidates github_base)

/-- Modelled from the spec: the candidate order the specification describes
for `resolve_base_reference` — "a CI-provided target-branch name, then a
small fixed list of conventional branch names (`origin/main`,
`origin/master`, `main`, `master`)" — with no `origin/`-prefixed copy of the
CI-provided name.  Written down only to be compared with `get_base_ref`. -/
def get_base_ref_claimed (github_base : Option String) (verifies : String → Bool) :
    Option String :=
  let fixed := ["origin/main", "origin/master", "main", "master"]
  let candidates :=
    match github_base with
    | some gb => if gb != "" then gb :: fixed else fixed
    | none => fixed
  firstVerified verifies candidates

/-- Embedding of `load_managed_files()`.  The file's contents are given as
`none` when the history file does not exist, otherwise as the list of its
lines.  Each line is stripped; blank lines and lines starting with `#` are
skipped.  The Python `set` is represented as the list of surviving lines
(only its membership is ever consulted). -/
def load_managed_files (historyLines : Option (List String)) : List String :=
  match historyLines with
  | none => []
  | some ls =>
    (ls.map pyStrip).filter (fun l => l != "" && !(pyStartsWith l "#"))

/-- Character-level split on `/`, as Python's `str.split("/")` behaves:
`splitSlash "a//b" = ["a", "", "b"]`, `splitSlash "" = [""]`. -/
def splitSlash : List Char → List (List Char)
  | [] => [[]]
  | c :: cs =>
    if c = '/' then [] :: splitSlash cs
    else
      match splitSlash cs with
      | g :: gs => (c :: g) :: gs
      | [] => [[c]]

/-- Inverse of `splitSlash`: join components with `/`. -/
def joinSlash : List (List Char) → List Char
  | [] => []
  | [g] => g
  | g :: gs => g ++ '/' :: joinSlash gs

/-- A path component survives `pathlib`'s parse when it is neither empty nor
the single dot. -/
def keepComp (g : List Char) : Bool :=
  g ≠ [] && g ≠ ['.']

/-- Number of leading `/` characters. -/
def leadSlashes : List Char → Nat
  | [] => 0
  | c :: rest => if c = '/' then leadSlashes rest + 1 else 0

/-- The root prefix `pathlib.PurePosixPath` keeps (POSIX rule): exactly two
leading slashes stay `//`, any other positive number of leading slashes
collapses to `/`, no leading slash gives the empty root. -/
def rootOf (cs : List Char) : List Char :=
  if leadSlashes cs = 2 then ['/', '/']
  else if 1 ≤ leadSlashes cs then ['/']
  else []

/-- `str(pathlib.Path(s))` on POSIX, over the character list of `s`:
drop empty and `.` components, keep the root, and render `.` for an
empty relative path. -/
def normalizeChars (cs : List Char) : List Char :=
  if rootOf cs = [] ∧ (splitSlash cs).filter keepComp = [] then ['.']
  else rootOf cs ++ joinSlash ((splitSlash cs).filter keepComp)

/-- Embedding of the script's `str(Path(file_path))` normalization. -/
def normalizePath (s : String) : String :=
  String.mk (normalizeChars s.data)

/-- Embedding of `main()` up to its observable outcome: the list of reported
violations (normalized paths, in input order) and the process exit code.
`modified p` abstracts `is_modified(p, base_ref)` for the original (not
normalized) candidate path `p`. -/
def mainCheck (changed_files : List String) (historyLines : Option (List String))
    (modified : String → Bool) : List String × Nat :=
  if changed_files.isEmpty then ([], 0)
  else
    let managed_files := load_managed_files historyLines
    if managed_files.isEmpty then ([], 0)
    else
      let violations := changed_files.foldl (fun acc file_path =>
        let normalized_path := normalizePath file_path
        if managed_files.contains normalized_path then
          if modified file_path then acc ++ [normalized_path] else acc
        else acc) []
      if violations.isEmpty then ([], 0) else (violations, 1)

/-! ## Embedding of validate_template_bundles.py

The validator is embedded from the point where the document has been parsed
(`_load_yaml_file`'s file I/O and YAML parsing are not part of the embedded
functions; validation operates on the parsed value).  Every function returns
`Except PyErr (List String)`: `.error` is a Python runtime exception escaping
the function, `.ok` the list of collected error strings. -/

/-- Python runtime exceptions the validator's operations can raise. -/
inductive PyErr where
  | typeError
  | keyError
  | attributeError
deriving Repr, DecidableEq

/-- Values `yaml.safe_load` can produce.  Mapping keys are restricted to
strings, as in every document the validator consumes; YAML floats are not
modelled. -/
inductive Yaml where
  | null
  | bool (b : Bool)
  | int (n : Int)
  | str (s : String)
  | list (xs : List Yaml)
  | dict (kvs : List (String × Yaml))
deriving Repr

/-- Python `repr()` of a parsed value (string escaping is not modelled). -/
def pyRepr : Yaml → String
  | .null => "None"
  | .bool true => "True"
  | .bool false => "False"
  | .int n => toString n
  | .str s => "'" ++ s ++ "'"
  | .list xs => "[" ++ String.intercalate ", " (xs.attach.map (fun a => pyRepr a.1)) ++ "]"
  | .dict kvs =>
      "\x7b" ++ String.intercalate ", "
        (kvs.attach.map (fun kv => "'" ++ kv.1.1 ++ "': " ++ pyRepr kv.1.2)) ++ "\x7d"
decreasing_by
  · have := List.sizeOf_lt_of_mem a.2
    simp [Yaml.list.sizeOf_spec]
    omega
  · have := List.sizeOf_lt_of_mem kv.2
    obtain ⟨⟨k, v⟩, hkv⟩ := kv
    simp_all [Yaml.dict.sizeOf_spec]
    omega

/-- Python `str()` of a parsed value, as an f-string renders it (for lists
and mappings, `str` falls back to `repr`). -/
def pyStr : Yaml → String
  | .str s => s
  | .null => "None"
  | .bool true => "True"
  | .bool false => "False"
  | .int n => toString n
  | .list xs => pyRepr (.list xs)
  | .dict kvs => pyRepr (.dict kvs)

/-- Python `==` between a parsed value and a `str` literal: only strings
compare equal to strings; values of any other type are simply unequal. -/
def yamlEqStr (v : Yaml) (s : String) : Bool :=
  match v with
  | .str t => t == s
  | _ => false

/-- First-match lookup in an association list (a parsed mapping's items). -/
def yamlLookup (kvs : List (String × Yaml)) (key : String) : Option Yaml :=
  (kvs.find? (fun kv => kv.1 == key)).map (fun kv => kv.2)

/-- Python `key in value` for a string key: mapping → key test, list →
element test, string → substring test, any other type raises `TypeError`. -/
def pyIn (key : String) (v : Yaml) : Except PyErr Bool :=
  match v with
  | .dict kvs => .ok (kvs.any (fun kv => kv.1 == key))
  | .list xs => .ok (xs.any (fun x => yamlEqStr x key))
  | .str s => .ok (decide (2 ≤ (s.splitOn key).length))
  | _ => .error .typeError

/-- Python `value[key]` for a string key: mapping lookup (`KeyError` when the
key is absent); subscripting anything else with a string raises
`TypeError`. -/
def pyGetItem (v : Yaml) (key : String) : Except PyErr Yaml :=
  match v with
  | .dict kvs =>
    match yamlLookup kvs key with
    | some x => .ok x
    | none => .error .keyError
  | _ => .error .typeError

/-- Python `value.get(key, default)`: only mappings have `.get`, every other
type raises `AttributeError`. -/
def pyGetDefault (v : Yaml) (key : String) (dflt : Yaml) : Except PyErr Yaml :=
  match v with
  | .dict kvs => .ok ((yamlLookup kvs key).getD dflt)
  | _ => .error .attributeError

/-- Python `len(value)`. -/
def pyLen (v : Yaml) : Except PyErr Nat :=
  match v with
  | .dict kvs => .ok kvs.length
  | .list xs => .ok xs.length
  | .str s => .ok s.length
  | _ => .error .typeError

/-- Python `value in names` where `names` is a `set` of strings: unhashable
values (lists, mappings) raise `TypeError`; hashable non-strings are simply
not members. -/
def pyInStrSet (v : Yaml) (names : List String) : Except PyErr Bool :=
  match v with
  | .str s => .ok (names.contains s)
  | .list _ => .error .typeError
  | .dict _ => .error .typeError
  | _ => .ok false

/-- Whether a value is hashable in Python (usable in a set-membership
test). -/
def Yaml.isHashable : Yaml → Bool
  | .list _ => false
  | .dict _ => false
  | _ => true

/-- Python numeric equality between a parsed value and an `int` count
(`True == 1`, `False == 0`; values of other types never equal an `int`). -/
def pyEqNum (v : Yaml) (n : Nat) : Bool :=
  match v with
  | .int m => m == (n : Int)
  | .bool b => (if b then (1 : Int) else 0) == (n : Int)
  | _ => false

/-- Embedding of `_validate_top_level_fields`.  `required_fields` is the set
literal `{"version", "bundles"}` in the source; its two membership tests are
performed here in the order the source text lists the fields. -/
def _validate_top_level_fields (data : Yaml) : Except PyErr (List String) := do
  let hasVersion ← pyIn "version" data
  let hasBundles ← pyIn "bundles" data
  return (if hasVersion then [] else ["Missing required field: version"]) ++
    (if hasBundles then [] else ["Missing required field: bundles"])

/-- The dependency loop of `_validate_bundle_structure`, shared by the
`requires` and `recommends` checks (`verb` is the word in the message): one
error per entry that is not a member of `bundle_names`. -/
def checkDeps (bundle_name verb : String) (deps : List Yaml)
    (bundle_names : List String) : Except PyErr (List String) :=
  match deps with
  | [] => .ok []
  | dep :: rest => do
    let mem ← pyInStrSet dep bundle_names
    let es ← checkDeps bundle_name verb rest bundle_names
    if mem then return es
    else return ("Bundle '" ++ bundle_name ++ "' " ++ verb ++
      " non-existent bundle '" ++ pyStr dep ++ "'") :: es

/-- The `requires`/`recommends` field handling of
`_validate_bundle_structure`: absent field → nothing, non-list value → one
type error, list value → the dependency loop. -/
def depsCheckField (bundle_name verb : String) (o : Option Yaml)
    (bundle_names : List String) : Except PyErr (List String) :=
  match o with
  | some (.list deps) => checkDeps bundle_name verb deps bundle_names
  | some _ => .ok ["Bundle '" ++ bundle_name ++ "' '" ++ verb ++ "' must be a list"]
  | none => .ok []

/-- Embedding of `_validate_bundle_structure`. -/
def _validate_bundle_structure (bundle_name : String) (bundle_config : Yaml)
    (bundle_names : List String) : Except PyErr (List String) :=
  match bundle_config with
  | .dict kvs => do
    let descErrs := if (yamlLookup kvs "description").isNone then
        ["Bundle '" ++ bundle_name ++ "' missing 'description'"] else []
    let filesErrs :=
      match yamlLookup kvs "files" with
      | none => ["Bundle '" ++ bundle_name ++ "' missing 'files'"]
      | some (.list _) => []
      | some _ => ["Bundle '" ++ bundle_name ++ "' 'files' must be a list"]
    let reqErrs ← depsCheckField bundle_name "requires"
      (yamlLookup kvs "requires") bundle_names
    let recErrs ← depsCheckField bundle_name "recommends"
      (yamlLookup kvs "recommends") bundle_names
    return descErrs ++ filesErrs ++ reqErrs ++ recErrs
  | _ => .ok ["Bundle '" ++ bundle_name ++ "' must be a dictionary"]

/-- The inner loop of `_validate_examples` over one example's `templates`
list: the sentinel `"core"` is skipped, every other entry must be a member
of `bundle_names`. -/
def checkTemplates (example_name : String) (ts : List Yaml)
    (bundle_names : List String) : Except PyErr (List String) :=
  match ts with
  | [] => .ok []
  | template :: rest => do
    let here ←
      if !(yamlEqStr template "core") then do
        let mem ← pyInStrSet template bundle_names
        if mem then pure ([] : List String)
        else pure ["Example '" ++ example_name ++
          "' references non-existent bundle '" ++ pyStr template ++ "'"]
      else pure []
    let es ← checkTemplates example_name rest bundle_names
    return here ++ es

/-- The per-example body of `_validate_examples`: the membership test
`"templates" in example_config`, the subscript, and the list check. -/
def exampleTemplatesCheck (example_name : String) (example_config : Yaml)
    (bundle_names : List String) : Except PyErr (List String) := do
  let hasTemplates ← pyIn "templates" example_config
  if hasTemplates then do
    let tv ← pyGetItem example_config "templates"
    match tv with
    | .list ts => checkTemplates example_name ts bundle_names
    | _ => pure ["Example '" ++ example_name ++ "' 'templates' must be a list"]
  else pure []

/-- The loop of `_validate_examples` over the examples mapping's items. -/
def checkExamples (exs : List (String × Yaml)) (bundle_names : List String) :
    Except PyErr (List String) :=
  match exs with
  | [] => .ok []
  | (example_name, example_config) :: rest => do
    let here ← exampleTemplatesCheck example_name example_config bundle_names
    let es ← checkExamples rest bundle_names
    return here ++ es

/-- Embedding of `_validate_examples`. -/
def _validate_examples (examples : Yaml) (bundle_names : List String) :
    Except PyErr (List String) :=
  match examples with
  | .dict exs => checkExamples exs bundle_names
  | _ => .ok ["'examples' must be a dictionary"]

/-- Embedding of `_validate_metadata`. -/
def _validate_metadata (metadata : Yaml) (bundles : Yaml) :
    Except PyErr (List String) := do
  let hasTotal ← pyIn "total_bundles" metadata
  if hasTotal then
    let expected_count ← pyLen bundles
    let actual_count ← pyGetItem metadata "total_bundles"
    if pyEqNum actual_count expected_count then return []
    else return ["Metadata 'total_bundles' (" ++ pyStr actual_count ++
      ") doesn't match actual bundle count (" ++ toString expected_count ++ ")"]
  else return []

/-- The per-bundle loop of `validate_template_bundles`, accumulating each
bundle's errors in mapping order. -/
def validateAllBundles (bundle_names : List String) :
    List (String × Yaml) → Except PyErr (List String)
  | [] => .ok []
  | (bundle_name, bundle_config) :: rest => do
    let es ← _validate_bundle_structure bundle_name bundle_config bundle_names
    let rest_es ← validateAllBundles bundle_names rest
    return es ++ rest_es

/-- Embedding of `validate_template_bundles`, from the parsed document on
(the file-existence and YAML-parse failures of `_load_yaml_file` happen
before this function's embedded part). -/
def validate_template_bundles (data : Yaml) : Except PyErr (Bool × List String) := do
  let errors ← _validate_top_level_fields data
  if !errors.isEmpty then
    return (false, errors)
  else do
  let bundles ← pyGetDefault data "bundles" (Yaml.dict [])
  match bundles with
  | .dict bs => do
    let bundle_names := bs.map (fun kv => kv.1)
    let bundleErrs ← validateAllBundles bundle_names bs
    let errors1 := errors ++ bundleErrs
    let hasExamples ← pyIn "examples" data
    let errors2 ←
      if hasExamples then do
        let ev ← pyGetItem data "examples"
        let es ← _validate_examples ev bundle_names
        pure (errors1 ++ es)
      else pure errors1
    let hasMeta ← pyIn "metadata" data
    let errors3 ←
      if hasMeta then do
        let mv ← pyGetItem data "metadata"
        let es ← _validate_metadata mv bundles
        pure (errors2 ++ es)
      else pure errors2
    return (errors3.isEmpty, errors3)
  | _ => return (false, ["'bundles' must be a dictionary"])

/-- The examples stage of `validate_template_bundles` as a function of the
top-level mapping: what the orchestrator contributes for the `examples` key
when it is present (used to state aggregation theorems). -/
def examplesPart (kvs : List (String × Yaml)) (bundle_names : List String) :
    Except PyErr (List String) :=
  match yamlLookup kvs "examples" with
  | some v => _validate_examples v bundle_names
  | none => .ok []

/-- The metadata stage of `validate_template_bundles` as a function of the
top-level mapping (used to state aggregation theorems). -/
def metadataPart (kvs : List (String × Yaml)) (bundles : Yaml) :
    Except PyErr (List String) :=
  match yamlLookup kvs "metadata" with
  | some v => _validate_metadata v bundles
  | none => .ok []

/-- A sufficient shape condition under which no validation step raises: the
top level is a mapping; each bundle's `requires`/`recommends` entries (when
those keys hold lists) are hashable; the `examples` value, when it is a
mapping, has mapping values whose `templates` entries (when that key holds a
list) are hashable; the `metadata` value, when present, is a mapping. -/
def safeBundleConfig (c : Yaml) : Bool :=
  match c with
  | .dict kvs =>
    (match yamlLookup kvs "requires" with
     | some (.list ds) => ds.all Yaml.isHashable
     | _ => true) &&
    (match yamlLookup kvs "recommends" with
     | some (.list ds) => ds.all Yaml.isHashable
     | _ => true)
  | _ => true

/-- Shape condition on one example's configuration: a mapping whose
`templates` entries (when that key holds a list) are hashable. -/
def safeExampleConfig (c : Yaml) : Bool :=
  match c with
  | .dict kvs =>
    match yamlLookup kvs "templates" with
    | some (.list ts) => ts.all Yaml.isHashable
    | _ => true
  | _ => false

/-- Shape condition on the `examples` value: a non-mapping is reported as an
error string (no raise), a mapping needs safe per-example configurations. -/
def safeExamplesVal (e : Yaml) : Bool :=
  match e with
  | .dict exs => exs.all (fun kv => safeExampleConfig kv.2)
  | _ => true

/-- Shape condition on the whole document under which
`validate_template_bundles` is proved not to raise. -/
def safeDoc (data : Yaml) : Bool :=
  match data with
  | .dict kvs =>
    (match yamlLookup kvs "bundles" with
     | some (.dict bs) => bs.all (fun kv => safeBundleConfig kv.2)
     | _ => true) &&
    (match yamlLookup kvs "examples" with
     | some e => safeExamplesVal e
     | none => true) &&
    (match yamlLookup kvs "metadata" with
     | some (.dict _) => true
     | some _ => false
     | none => true)
  | _ => false

/-! ## Theorems: managed-file guard -/

/-- A query result is a hit exactly when the call completed with exit code 0
and non-blank output. -/
theorem runHit_iff (res : Option RunResult) :
    runHit res = true ↔ ∃ r, res = some r ∧ r.returncode = 0 ∧ pyStrip r.stdout ≠ "" := by
  cases res with
  | none => simp [runHit]
  | some r => simp [runHit, and_assoc]

/-- Truthiness of an optional string, declaratively. -/
theorem truthyOpt_iff (v : Option String) :
    truthyOpt v = true ↔ ∃ s, v = some s ∧ s ≠ "" := by
  cases v <;> simp [truthyOpt]

/-- `is_modified`'s early-return control flow collapses to a disjunction of
the two checks. -/
theorem is_modified_eq_or (statusRes diffRes : Option RunResult)
    (base_ref ciVar : Option String) :
    is_modified statusRes base_ref ciVar diffRes =
      (runHit statusRes || (truthyOpt base_ref && truthyOpt ciVar && runHit diffRes)) := by
  unfold is_modified
  cases h1 : runHit statusRes <;>
    cases h2 : truthyOpt base_ref <;>
      cases h3 : truthyOpt ciVar <;> simp

/-- C1: `is_modified` is true iff the status query succeeded with non-blank
output, or base ref and `CI` are both truthy and the diff query succeeded
with non-blank output; with `CI` unset or empty the result is independent of
the base reference and of the diff query. -/
theorem C1_is_modified_iff (statusRes diffRes : Option RunResult)
    (base_ref ciVar : Option String) :
    (is_modified statusRes base_ref ciVar diffRes = true ↔
      ((∃ r, statusRes = some r ∧ r.returncode = 0 ∧ pyStrip r.stdout ≠ "") ∨
       ((∃ b, base_ref = some b ∧ b ≠ "") ∧ (∃ c, ciVar = some c ∧ c ≠ "") ∧
        (∃ r, diffRes = some r ∧ r.returncode = 0 ∧ pyStrip r.stdout ≠ "")))) ∧
    (∀ base_ref' diffRes',
      is_modified statusRes base_ref none diffRes =
        is_modified statusRes base_ref' none diffRes' ∧
      is_modified statusRes base_ref (some "") diffRes =
        is_modified statusRes base_ref' (some "") diffRes') := by
  constructor
  · rw [is_modified_eq_or]
    simp only [Bool.or_eq_true, Bool.and_eq_true, runHit_iff, truthyOpt_iff, and_assoc]
  · intro base_ref' diffRes'
    constructor <;> simp [is_modified_eq_or, truthyOpt]

/-- C3 counterexample: on a concrete failing working-tree query (the
subprocess raised, `statusRes = none`, with no base reference and no diff
hit) the checker reports "not modified", while the fail-closed variant the
claim asserts to be selectable would report "modified".  The checker is one
fixed function of its inputs with no policy parameter, so no configuration
makes it behave fail-closed. -/
theorem C3_no_fail_closed_counterexample :
    is_modified none none none none = false ∧
    is_modified_fail_closed none none none none = true := by
  constructor <;> rfl

/-- C3 amended: the managed-file checker implements only the fail-open
treatment of a working-tree query failure — the failure is caught and
ignored for that check, and the base-reference comparison is still attempted
independently (the overall result is then exactly the result of the
base-reference comparison, gated on a truthy base ref and `CI`). -/
theorem C3_fail_open_only (base_ref ciVar : Option String)
    (diffRes : Option RunResult) :
    is_modified none base_ref ciVar diffRes =
      (truthyOpt base_ref && truthyOpt ciVar && runHit diffRes) := by
  rw [is_modified_eq_or]
  rfl

/-- The candidate loop of `get_base_ref` is "first verified wins". -/
theorem firstVerified_eq_find (verifies : String → Bool) (l : List String) :
    firstVerified verifies l = l.find? verifies := by
  induction l with
  | nil => rfl
  | cons r rest ih =>
    unfold firstVerified
    rw [List.find?_cons]
    cases h : verifies r <;> simp [h, ih]

/-- C6 counterexample: with `GITHUB_BASE_REF=dev` and a repository in which
only `origin/dev` resolves, the script returns `origin/dev`, while under the
claimed candidate order (which has no `origin/`-prefixed copy of the CI
target branch) no candidate would resolve and the result would be `none`. -/
theorem C6_candidate_order_counterexample :
    get_base_ref (some "dev") (fun r => r == "origin/dev") = some "origin/dev" ∧
    get_base_ref_claimed (some "dev") (fun r => r == "origin/dev") = none := by
  constructor <;> rfl

/-- C6 amended: `get_base_ref` tries, in order, the CI-provided target-branch
name, then that name prefixed with `origin/`, then `origin/main`,
`origin/master`, `main`, `master` (the two CI-derived candidates appearing
only when `GITHUB_BASE_REF` is set and non-empty), and returns the first
candidate for which the revision-verification query succeeds, or `none` when
it fails for every candidate. -/
theorem C6_get_base_ref_order (github_base : Option String)
    (verifies : String → Bool) :
    get_base_ref github_base verifies =
      ((match github_base with
        | some gb => if gb ≠ "" then [gb, "origin/" ++ gb] else []
        | none => []) ++
       ["origin/main", "origin/master", "main", "master"]).find? verifies := by
  rw [get_base_ref, firstVerified_eq_find]
  cases github_base with
  | none => rfl
  | some gb =>
    by_cases h : gb = "" <;> simp [buildCandidates, h]

/-! ## Theorems: bundle validator -/

/-- Monad reduction: binding a successful step runs the continuation. -/
theorem exceptBind_ok {α β : Type} (a : α) (f : α → Except PyErr β) :
    (Except.ok a : Except PyErr α) >>= f = f a := rfl

/-- Monad reduction: a raised exception short-circuits the rest. -/
theorem exceptBind_err {α β : Type} (e : PyErr) (f : α → Except PyErr β) :
    (Except.error e : Except PyErr α) >>= f = Except.error e := rfl

/-- Monad reduction: `pure` is `.ok`. -/
theorem exceptPure {α : Type} (a : α) : (pure a : Except PyErr α) = Except.ok a := rfl

/-- The membership test a mapping answers is key-lookup success. -/
theorem any_eq_lookup_isSome (kvs : List (String × Yaml)) (key : String) :
    kvs.any (fun kv => kv.1 == key) = (yamlLookup kvs key).isSome := by
  induction kvs with
  | nil => rfl
  | cons kv rest ih =>
    rw [List.any_cons, yamlLookup, List.find?_cons]
    cases h : (kv.1 == key) with
    | true => simp [h]
    | false =>
      simp [h, yamlLookup] at ih ⊢
      exact ih

/-- Subscripting a mapping at a key the lookup finds returns its value. -/
theorem pyGetItem_of_lookup (kvs : List (String × Yaml)) (key : String) (v : Yaml)
    (h : yamlLookup kvs key = some v) : pyGetItem (Yaml.dict kvs) key = .ok v := by
  simp [pyGetItem, h]

/-- Characterization of the dependency loop on hashable entries: one error
per entry that is not a key (string entries absent from the names, and every
hashable non-string entry), in list order, and no error for entries that are
keys; no exception is raised. -/
theorem checkDeps_eq (bundle_name verb : String) (deps : List Yaml)
    (bundle_names : List String) (hdeps : ∀ d ∈ deps, d.isHashable = true) :
    checkDeps bundle_name verb deps bundle_names =
      .ok ((deps.filter (fun d =>
          match d with
          | .str s => !bundle_names.contains s
          | _ => true)).map (fun d =>
        "Bundle '" ++ bundle_name ++ "' " ++ verb ++
          " non-existent bundle '" ++ pyStr d ++ "'")) := by
  induction deps with
  | nil => rfl
  | cons dep rest ih =>
    have hrest := ih (fun d hd => hdeps d (List.mem_cons_of_mem _ hd))
    have hdep := hdeps dep (List.mem_cons_self _ _)
    cases dep with
    | list xs => simp [Yaml.isHashable] at hdep
    | dict kvs => simp [Yaml.isHashable] at hdep
    | null =>
      simp [checkDeps, pyInStrSet, exceptBind_ok, exceptPure, hrest, List.filter_cons]
    | bool b =>
      simp [checkDeps, pyInStrSet, exceptBind_ok, exceptPure, hrest, List.filter_cons]
    | int n =>
      simp [checkDeps, pyInStrSet, exceptBind_ok, exceptPure, hrest, List.filter_cons]
    | str s =>
      by_cases hmem : s ∈ bundle_names <;>
        simp [checkDeps, pyInStrSet, exceptBind_ok, exceptPure, hrest, hmem,
          List.filter_cons]

/-- C5: for a `requires`/`recommends` list of hashable entries, the bundle
check emits exactly one error per entry that is not a key of the bundles
mapping (in list order) and no error for entries that are keys; and on the
claim's concrete document, validation returns exactly
`(False, ["Bundle 'extra' requires non-existent bundle 'missing'"])`. -/
theorem C5_dangling_references (bundle_name verb : String) (deps : List Yaml)
    (bundle_names : List String) (hdeps : ∀ d ∈ deps, d.isHashable = true) :
    checkDeps bundle_name verb deps bundle_names =
      .ok ((deps.filter (fun d =>
          match d with
          | .str s => !bundle_names.contains s
          | _ => true)).map (fun d =>
        "Bundle '" ++ bundle_name ++ "' " ++ verb ++
          " non-existent bundle '" ++ pyStr d ++ "'")) ∧
    validate_template_bundles (Yaml.dict [("version", Yaml.str "1.0"),
      ("bundles", Yaml.dict [
        ("core", Yaml.dict [("description", Yaml.str "c"), ("files", Yaml.list [])]),
        ("extra", Yaml.dict [("description", Yaml.str "e"), ("files", Yaml.list []),
          ("requires", Yaml.list [Yaml.str "missing"])])])]) =
      .ok (false, ["Bundle 'extra' requires non-existent bundle 'missing'"]) :=
  ⟨checkDeps_eq bundle_name verb deps bundle_names hdeps, rfl⟩

/-- C5 witness: the theorem applied to the scenario's `requires` list. -/
theorem C5_dangling_references_witness :
    checkDeps "extra" "requires" [Yaml.str "missing"] ["core", "extra"] =
      .ok ["Bundle 'extra' requires non-existent bundle 'missing'"] ∧
    validate_template_bundles (Yaml.dict [("version", Yaml.str "1.0"),
      ("bundles", Yaml.dict [
        ("core", Yaml.dict [("description", Yaml.str "c"), ("files", Yaml.list [])]),
        ("extra", Yaml.dict [("description", Yaml.str "e"), ("files", Yaml.list []),
          ("requires", Yaml.list [Yaml.str "missing"])])])]) =
      .ok (false, ["Bundle 'extra' requires non-existent bundle 'missing'"]) := by
  have h := C5_dangling_references "extra" "requires" [Yaml.str "missing"]
    ["core", "extra"] (by intro d hd; simp at hd; subst hd; rfl)
  exact ⟨h.1.trans (by rfl), h.2⟩

/-- C9: when the metadata mapping has a `total_bundles` key, the metadata
check returns exactly one error iff the declared value is not (Python-)equal
to the number of bundles, and that error reports the declared value and the
actual count; equal values contribute no error. -/
theorem C9_metadata_total_bundles (m bs : List (String × Yaml)) (v : Yaml)
    (h : yamlLookup m "total_bundles" = some v) :
    _validate_metadata (Yaml.dict m) (Yaml.dict bs) =
      .ok (if pyEqNum v bs.length then []
        else ["Metadata 'total_bundles' (" ++ pyStr v ++
          ") doesn't match actual bundle count (" ++ toString bs.length ++ ")"]) := by
  have hany : (List.any m fun kv => kv.1 == "total_bundles") = true := by
    rw [any_eq_lookup_isSome, h]
    rfl
  have hget := pyGetItem_of_lookup m "total_bundles" v h
  by_cases he : pyEqNum v bs.length = true <;>
    simp [_validate_metadata, pyIn, pyLen, hany, hget, he, exceptBind_ok, exceptPure]

/-- C9 witness: `total_bundles: 5` declared against two actual bundles. -/
theorem C9_metadata_total_bundles_witness :
    _validate_metadata (Yaml.dict [("total_bundles", Yaml.int 5)])
      (Yaml.dict [("a", Yaml.null), ("b", Yaml.null)]) =
      .ok ["Metadata 'total_bundles' (5) doesn't match actual bundle count (2)"] := by
  have h := C9_metadata_total_bundles [("total_bundles", Yaml.int 5)]
    [("a", Yaml.null), ("b", Yaml.null)] (Yaml.int 5) rfl
  exact h.trans (by rfl)

/-- C2 counterexample: on the concrete document
`{version: "1.0", bundles: [], metadata: {total_bundles: 5}}` the
orchestrator stops at the non-mapping `bundles` value — after the top-level
required-field check has passed — and returns only that one error, even
though the metadata key is present and the metadata check (evaluated on this
document's metadata and bundles values, as shown by the second conjunct)
would contribute a mismatch error that the claim requires in the
concatenated result. -/
theorem C2_short_circuit_counterexample :
    validate_template_bundles (Yaml.dict [("version", Yaml.str "1.0"),
      ("bundles", Yaml.list []),
      ("metadata", Yaml.dict [("total_bundles", Yaml.int 5)])]) =
      .ok (false, ["'bundles' must be a dictionary"]) ∧
    _validate_metadata (Yaml.dict [("total_bundles", Yaml.int 5)]) (Yaml.list []) =
      .ok ["Metadata 'total_bundles' (5) doesn't match actual bundle count (0)"] := by
  constructor <;> rfl

/-- Shared aggregation lemma: a failing top-level check short-circuits with
only its errors. -/
theorem validate_top_fail_eq (data : Yaml) (errs : List String)
    (h : _validate_top_level_fields data = .ok errs) (hne : errs ≠ []) :
    validate_template_bundles data = .ok (false, errs) := by
  cases errs with
  | nil => exact absurd rfl hne
  | cons e es =>
    simp [validate_template_bundles, h, exceptBind_ok, exceptPure]

/-- Shared aggregation lemma: when the top level passes and the `bundles`
value the orchestrator reads is not a mapping, validation stops with only
that error. -/
theorem validate_bundles_nondict_eq (kvs : List (String × Yaml)) (bv : Yaml)
    (htlf : _validate_top_level_fields (Yaml.dict kvs) = .ok [])
    (hgd : pyGetDefault (Yaml.dict kvs) "bundles" (Yaml.dict []) = .ok bv)
    (hnd : ∀ bs, bv ≠ Yaml.dict bs) :
    validate_template_bundles (Yaml.dict kvs) =
      .ok (false, ["'bundles' must be a dictionary"]) := by
  cases bv with
  | dict bs => exact absurd rfl (hnd bs)
  | null => simp [validate_template_bundles, htlf, hgd, exceptBind_ok, exceptPure]
  | bool b => simp [validate_template_bundles, htlf, hgd, exceptBind_ok, exceptPure]
  | int n => simp [validate_template_bundles, htlf, hgd, exceptBind_ok, exceptPure]
  | str s => simp [validate_template_bundles, htlf, hgd, exceptBind_ok, exceptPure]
  | list xs => simp [validate_template_bundles, htlf, hgd, exceptBind_ok, exceptPure]

/-- Shared aggregation lemma: when the top level passes and `bundles` is a
mapping, the result is the concatenation of the per-bundle, examples and
metadata stage errors, with `ok` true exactly when it is empty. -/
theorem validate_agg_eq (kvs bs : List (String × Yaml)) (e1 e2 e3 : List String)
    (htlf : _validate_top_level_fields (Yaml.dict kvs) = .ok [])
    (hgd : pyGetDefault (Yaml.dict kvs) "bundles" (Yaml.dict []) = .ok (Yaml.dict bs))
    (hball : validateAllBundles (bs.map (fun kv => kv.1)) bs = .ok e1)
    (hex : examplesPart kvs (bs.map (fun kv => kv.1)) = .ok e2)
    (hmeta : metadataPart kvs (Yaml.dict bs) = .ok e3) :
    validate_template_bundles (Yaml.dict kvs) =
      .ok ((e1 ++ e2 ++ e3).isEmpty, e1 ++ e2 ++ e3) := by
  rcases hexl : yamlLookup kvs "examples" with _ | ev <;>
    rcases hmetl : yamlLookup kvs "metadata" with _ | mv
  · have he2 : e2 = [] := by
      rw [examplesPart, hexl] at hex
      exact (Except.ok.inj hex).symm
    have he3 : e3 = [] := by
      rw [metadataPart, hmetl] at hmeta
      exact (Except.ok.inj hmeta).symm
    have hanyE : (List.any kvs fun kv => kv.1 == "examples") = false := by
      rw [any_eq_lookup_isSome, hexl]
      rfl
    have hanyM : (List.any kvs fun kv => kv.1 == "metadata") = false := by
      rw [any_eq_lookup_isSome, hmetl]
      rfl
    subst he2 he3
    simp [validate_template_bundles, htlf, hgd, hball, hanyE, hanyM,
      exceptBind_ok, exceptPure, pyIn]
  · have he2 : e2 = [] := by
      rw [examplesPart, hexl] at hex
      exact (Except.ok.inj hex).symm
    have hanyE : (List.any kvs fun kv => kv.1 == "examples") = false := by
      rw [any_eq_lookup_isSome, hexl]
      rfl
    have hanyM : (List.any kvs fun kv => kv.1 == "metadata") = true := by
      rw [any_eq_lookup_isSome, hmetl]
      rfl
    have hgetM := pyGetItem_of_lookup kvs "metadata" mv hmetl
    have hvm : _validate_metadata mv (Yaml.dict bs) = .ok e3 := by
      rw [metadataPart, hmetl] at hmeta
      exact hmeta
    subst he2
    simp [validate_template_bundles, htlf, hgd, hball, hanyE, hanyM, hgetM,
      hvm, exceptBind_ok, exceptPure, pyIn]
  · have he3 : e3 = [] := by
      rw [metadataPart, hmetl] at hmeta
      exact (Except.ok.inj hmeta).symm
    have hanyE : (List.any kvs fun kv => kv.1 == "examples") = true := by
      rw [any_eq_lookup_isSome, hexl]
      rfl
    have hanyM : (List.any kvs fun kv => kv.1 == "metadata") = false := by
      rw [any_eq_lookup_isSome, hmetl]
      rfl
    have hgetE := pyGetItem_of_lookup kvs "examples" ev hexl
    have hve : _validate_examples ev (bs.map (fun kv => kv.1)) = .ok e2 := by
      rw [examplesPart, hexl] at hex
      exact hex
    subst he3
    simp [validate_template_bundles, htlf, hgd, hball, hanyE, hanyM, hgetE,
      hve, exceptBind_ok, exceptPure, pyIn]
  · have hanyE : (List.any kvs fun kv => kv.1 == "examples") = true := by
      rw [any_eq_lookup_isSome, hexl]
      rfl
    have hanyM : (List.any kvs fun kv => kv.1 == "metadata") = true := by
      rw [any_eq_lookup_isSome, hmetl]
      rfl
    have hgetE := pyGetItem_of_lookup kvs "examples" ev hexl
    have hve : _validate_examples ev (bs.map (fun kv => kv.1)) = .ok e2 := by
      rw [examplesPart, hexl] at hex
      exact hex
    have hgetM := pyGetItem_of_lookup kvs "metadata" mv hmetl
    have hvm : _validate_metadata mv (Yaml.dict bs) = .ok e3 := by
      rw [metadataPart, hmetl] at hmeta
      exact hmeta
    simp [validate_template_bundles, htlf, hgd, hball, hanyE, hanyM, hgetE,
      hve, hgetM, hvm, exceptBind_ok, exceptPure, pyIn]

/-- C2 amended: validation proceeds top-level first, short-circuiting with
only the top-level errors when that check fails; then — a second
short-circuit the original claim omits — when the `bundles` value is not a
mapping it returns immediately with only that error; otherwise it evaluates
the per-bundle check for every bundle, the examples check when an `examples`
key is present and the metadata check when a `metadata` key is present,
returning the concatenation of their errors with `ok` true exactly when the
concatenation is empty. -/
theorem C2_validate_stage_order :
    (∀ (data : Yaml) (errs : List String),
      _validate_top_level_fields data = .ok errs → errs ≠ [] →
      validate_template_bundles data = .ok (false, errs)) ∧
    (∀ (kvs : List (String × Yaml)) (bv : Yaml),
      _validate_top_level_fields (Yaml.dict kvs) = .ok [] →
      yamlLookup kvs "bundles" = some bv → (∀ bs, bv ≠ Yaml.dict bs) →
      validate_template_bundles (Yaml.dict kvs) =
        .ok (false, ["'bundles' must be a dictionary"])) ∧
    (∀ (kvs bs : List (String × Yaml)) (e1 e2 e3 : List String),
      _validate_top_level_fields (Yaml.dict kvs) = .ok [] →
      yamlLookup kvs "bundles" = some (Yaml.dict bs) →
      validateAllBundles (bs.map (fun kv => kv.1)) bs = .ok e1 →
      examplesPart kvs (bs.map (fun kv => kv.1)) = .ok e2 →
      metadataPart kvs (Yaml.dict bs) = .ok e3 →
      validate_template_bundles (Yaml.dict kvs) =
        .ok ((e1 ++ e2 ++ e3).isEmpty, e1 ++ e2 ++ e3)) := by
  refine ⟨validate_top_fail_eq, ?_, ?_⟩
  · intro kvs bv htlf hlookup hnd
    exact validate_bundles_nondict_eq kvs bv htlf (by simp [pyGetDefault, hlookup]) hnd
  · intro kvs bs e1 e2 e3 htlf hlookup hball hex hmeta
    exact validate_agg_eq kvs bs e1 e2 e3 htlf (by simp [pyGetDefault, hlookup])
      hball hex hmeta

/-- C2 witness: the amended orchestration applied to the three concrete
documents that exercise each stage. -/
theorem C2_validate_stage_order_witness :
    validate_template_bundles (Yaml.dict [("examples", Yaml.null)]) =
      .ok (false, ["Missing required field: version", "Missing required field: bundles"]) ∧
    validate_template_bundles (Yaml.dict [("version", Yaml.str "1.0"),
      ("bundles", Yaml.str "nope")]) =
      .ok (false, ["'bundles' must be a dictionary"]) ∧
    validate_template_bundles (Yaml.dict [("version", Yaml.str "1.0"),
      ("bundles", Yaml.dict []),
      ("metadata", Yaml.dict [("total_bundles", Yaml.int 1)])]) =
      .ok (false, ["Metadata 'total_bundles' (1) doesn't match actual bundle count (0)"]) := by
  refine ⟨?_, ?_, ?_⟩
  · exact C2_validate_stage_order.1 (Yaml.dict [("examples", Yaml.null)])
      ["Missing required field: version", "Missing required field: bundles"] rfl
      (by simp)
  · exact C2_validate_stage_order.2.1 [("version", Yaml.str "1.0"),
      ("bundles", Yaml.str "nope")] (Yaml.str "nope") rfl rfl (fun bs h => by cases h)
  · exact (C2_validate_stage_order.2.2 [("version", Yaml.str "1.0"),
      ("bundles", Yaml.dict []), ("metadata", Yaml.dict [("total_bundles", Yaml.int 1)])]
      [] []
      [] ["Metadata 'total_bundles' (1) doesn't match actual bundle count (0)"]
      rfl rfl rfl rfl rfl).trans (by rfl)

/-- Characterization of the templates loop on hashable entries: one error per
entry that is neither the `"core"` sentinel nor a key, in list order. -/
theorem checkTemplates_eq (example_name : String) (ts : List Yaml)
    (bundle_names : List String) (hts : ∀ t ∈ ts, t.isHashable = true) :
    checkTemplates example_name ts bundle_names =
      .ok ((ts.filter (fun t =>
          match t with
          | .str s => !(s == "core") && !bundle_names.contains s
          | _ => true)).map (fun t =>
        "Example '" ++ example_name ++ "' references non-existent bundle '" ++
          pyStr t ++ "'")) := by
  induction ts with
  | nil => rfl
  | cons t rest ih =>
    have hrest := ih (fun x hx => hts x (List.mem_cons_of_mem _ hx))
    have ht := hts t (List.mem_cons_self _ _)
    cases t with
    | list xs => simp [Yaml.isHashable] at ht
    | dict kvs => simp [Yaml.isHashable] at ht
    | null =>
      simp [checkTemplates, yamlEqStr, pyInStrSet, exceptBind_ok, exceptPure,
        hrest, List.filter_cons]
    | bool b =>
      simp [checkTemplates, yamlEqStr, pyInStrSet, exceptBind_ok, exceptPure,
        hrest, List.filter_cons]
    | int n =>
      simp [checkTemplates, yamlEqStr, pyInStrSet, exceptBind_ok, exceptPure,
        hrest, List.filter_cons]
    | str s =>
      by_cases hcore : s = "core"
      · subst hcore
        simp [checkTemplates, yamlEqStr, pyInStrSet, exceptBind_ok, exceptPure,
          hrest, List.filter_cons]
      · by_cases hmem : s ∈ bundle_names <;>
          simp [checkTemplates, yamlEqStr, pyInStrSet, exceptBind_ok,
            exceptPure, hrest, hcore, hmem, List.filter_cons]

/-- A `requires`/`recommends` field whose list entries are hashable never
raises. -/
theorem depsCheckField_safe_ok (bundle_name verb : String) (o : Option Yaml)
    (bundle_names : List String)
    (h : (match o with
      | some (.list ds) => ds.all Yaml.isHashable
      | _ => true) = true) :
    ∃ es, depsCheckField bundle_name verb o bundle_names = .ok es := by
  rcases o with _ | v
  · exact ⟨[], rfl⟩
  · cases v with
    | list ds =>
      have h' : ds.all Yaml.isHashable = true := h
      exact ⟨_, checkDeps_eq bundle_name verb ds bundle_names
        (fun d hd => List.all_eq_true.mp h' d hd)⟩
    | null => exact ⟨_, rfl⟩
    | bool b => exact ⟨_, rfl⟩
    | int n => exact ⟨_, rfl⟩
    | str s => exact ⟨_, rfl⟩
    | dict kvs => exact ⟨_, rfl⟩

/-- A bundle configuration of safe shape never makes the bundle check
raise. -/
theorem validate_bundle_structure_safe_ok (bundle_name : String) (c : Yaml)
    (bundle_names : List String) (h : safeBundleConfig c = true) :
    ∃ es, _validate_bundle_structure bundle_name c bundle_names = .ok es := by
  cases c with
  | dict kvs =>
    have h2 : ((match yamlLookup kvs "requires" with
        | some (.list ds) => ds.all Yaml.isHashable
        | _ => true) &&
      (match yamlLookup kvs "recommends" with
        | some (.list ds) => ds.all Yaml.isHashable
        | _ => true)) = true := h
    rw [Bool.and_eq_true] at h2
    obtain ⟨hes1, h1⟩ := depsCheckField_safe_ok bundle_name "requires"
      (yamlLookup kvs "requires") bundle_names h2.1
    obtain ⟨hes2, hrec⟩ := depsCheckField_safe_ok bundle_name "recommends"
      (yamlLookup kvs "recommends") bundle_names h2.2
    simp [_validate_bundle_structure, h1, hrec, exceptBind_ok, exceptPure]
  | null => exact ⟨_, rfl⟩
  | bool b => exact ⟨_, rfl⟩
  | int n => exact ⟨_, rfl⟩
  | str s => exact ⟨_, rfl⟩
  | list xs => exact ⟨_, rfl⟩

/-- The per-bundle loop never raises when every configuration is of safe
shape. -/
theorem validateAllBundles_safe_ok (bundle_names : List String)
    (bs : List (String × Yaml)) (h : ∀ kv ∈ bs, safeBundleConfig kv.2 = true) :
    ∃ es, validateAllBundles bundle_names bs = .ok es := by
  induction bs with
  | nil => exact ⟨[], rfl⟩
  | cons kv rest ih =>
    obtain ⟨bn, bc⟩ := kv
    obtain ⟨es1, h1⟩ := validate_bundle_structure_safe_ok bn bc bundle_names
      (h (bn, bc) (List.mem_cons_self _ _))
    obtain ⟨es2, h2⟩ := ih (fun x hx => h x (List.mem_cons_of_mem _ hx))
    simp [validateAllBundles, h1, h2, exceptBind_ok, exceptPure]

/-- An example configuration of safe shape never makes the per-example body
raise. -/
theorem exampleTemplatesCheck_safe_ok (example_name : String) (ec : Yaml)
    (bundle_names : List String) (h : safeExampleConfig ec = true) :
    ∃ es, exampleTemplatesCheck example_name ec bundle_names = .ok es := by
  cases ec with
  | dict ckvs =>
    rcases htl : yamlLookup ckvs "templates" with _ | tv
    · have hany : (List.any ckvs fun kv => kv.1 == "templates") = false := by
        rw [any_eq_lookup_isSome, htl]
        rfl
      exact ⟨[], by simp [exampleTemplatesCheck, pyIn, hany, exceptBind_ok,
        exceptPure]⟩

    · have hany : (List.any ckvs fun kv => kv.1 == "templates") = true := by
        rw [any_eq_lookup_isSome, htl]
        rfl
      have hget := pyGetItem_of_lookup ckvs "templates" tv htl
      cases tv with
      | list ts =>
        have h2 : ts.all Yaml.isHashable = true := by
          have h' : (match yamlLookup ckvs "templates" with
              | some (.list ds) => ds.all Yaml.isHashable
              | _ => true) = true := h
          rwa [htl] at h'
        simp [exampleTemplatesCheck, pyIn, hany, hget, exceptBind_ok, exceptPure,
          checkTemplates_eq example_name ts bundle_names
            (fun t htm => List.all_eq_true.mp h2 t htm)]
      | null =>
        simp [exampleTemplatesCheck, pyIn, hany, hget, exceptBind_ok, exceptPure]
      | bool b =>
        simp [exampleTemplatesCheck, pyIn, hany, hget, exceptBind_ok, exceptPure]
      | int n =>
        simp [exampleTemplatesCheck, pyIn, hany, hget, exceptBind_ok, exceptPure]
      | str s =>
        simp [exampleTemplatesCheck, pyIn, hany, hget, exceptBind_ok, exceptPure]
      | dict dkvs =>
        simp [exampleTemplatesCheck, pyIn, hany, hget, exceptBind_ok, exceptPure]
  | null => simp [safeExampleConfig] at h
  | bool b => simp [safeExampleConfig] at h
  | int n => simp [safeExampleConfig] at h
  | str s => simp [safeExampleConfig] at h
  | list xs => simp [safeExampleConfig] at h

/-- The examples loop never raises when every configuration is of safe
shape. -/
theorem checkExamples_safe_ok (exs : List (String × Yaml))
    (bundle_names : List String) (h : ∀ kv ∈ exs, safeExampleConfig kv.2 = true) :
    ∃ es, checkExamples exs bundle_names = .ok es := by
  induction exs with
  | nil => exact ⟨[], rfl⟩
  | cons kv rest ih =>
    obtain ⟨en, ec⟩ := kv
    obtain ⟨es1, h1⟩ := exampleTemplatesCheck_safe_ok en ec bundle_names
      (h (en, ec) (List.mem_cons_self _ _))
    obtain ⟨es2, h2⟩ := ih (fun x hx => h x (List.mem_cons_of_mem _ hx))
    simp [checkExamples, h1, h2, exceptBind_ok, exceptPure]

/-- The examples stage never raises on a safe `examples` value. -/
theorem validate_examples_safe_ok (e : Yaml) (bundle_names : List String)
    (h : safeExamplesVal e = true) :
    ∃ es, _validate_examples e bundle_names = .ok es := by
  cases e with
  | dict exs =>
    have h' : ∀ kv ∈ exs, safeExampleConfig kv.2 = true := by
      have h2 : exs.all (fun kv => safeExampleConfig kv.2) = true := h
      exact fun kv hkv => List.all_eq_true.mp h2 kv hkv
    exact checkExamples_safe_ok exs bundle_names h'
  | null => exact ⟨_, rfl⟩
  | bool b => exact ⟨_, rfl⟩
  | int n => exact ⟨_, rfl⟩
  | str s => exact ⟨_, rfl⟩
  | list xs => exact ⟨_, rfl⟩

/-- The metadata check never raises when both arguments are mappings. -/
theorem validate_metadata_dict_ok (m bs : List (String × Yaml)) :
    ∃ es, _validate_metadata (Yaml.dict m) (Yaml.dict bs) = .ok es := by
  rcases htl : yamlLookup m "total_bundles" with _ | v
  · have hany : (List.any m fun kv => kv.1 == "total_bundles") = false := by
      rw [any_eq_lookup_isSome, htl]
      rfl
    simp [_validate_metadata, pyIn, hany, exceptBind_ok, exceptPure]
  · have hany : (List.any m fun kv => kv.1 == "total_bundles") = true := by
      rw [any_eq_lookup_isSome, htl]
      rfl
    have hget := pyGetItem_of_lookup m "total_bundles" v htl
    by_cases he : pyEqNum v bs.length = true <;>
      simp [_validate_metadata, pyIn, pyLen, hany, hget, he,
        exceptBind_ok, exceptPure]

/-- The examples stage of the orchestrator never raises when the `examples`
value, if present, is of safe shape. -/
theorem examplesPart_safe_ok (kvs : List (String × Yaml)) (names : List String)
    (h : (match yamlLookup kvs "examples" with
      | some e => safeExamplesVal e
      | none => true) = true) :
    ∃ es, examplesPart kvs names = .ok es := by
  rcases hx : yamlLookup kvs "examples" with _ | ev
  · exact ⟨[], by simp [examplesPart, hx]⟩
  · rw [hx] at h
    obtain ⟨es, hes⟩ := validate_examples_safe_ok ev names h
    exact ⟨es, by simp [examplesPart, hx, hes]⟩

/-- The metadata stage of the orchestrator never raises when the `metadata`
value, if present, is a mapping. -/
theorem metadataPart_safe_ok (kvs bs : List (String × Yaml))
    (h : (match yamlLookup kvs "metadata" with
      | some (.dict _) => true
      | some _ => false
      | none => true) = true) :
    ∃ es, metadataPart kvs (Yaml.dict bs) = .ok es := by
  rcases hx : yamlLookup kvs "metadata" with _ | mv
  · exact ⟨[], by simp [metadataPart, hx]⟩
  · rw [hx] at h
    cases mv with
    | dict m =>
      obtain ⟨es, hes⟩ := validate_metadata_dict_ok m bs
      exact ⟨es, by simp [metadataPart, hx, hes]⟩
    | null => simp at h
    | bool b => simp at h
    | int n => simp at h
    | str s => simp at h
    | list xs => simp at h

/-- C4 counterexample: the parser can produce `examples: {demo: null}`
(`null` example configuration); on that document `_validate_examples`
raises `TypeError` (Python: `argument of type NoneType is not iterable`, from
`"templates" in example_config`), and `validate_template_bundles` propagates
the exception instead of returning an `(ok, error_list)` pair. -/
theorem C4_raises_counterexample :
    validate_template_bundles (Yaml.dict [("version", Yaml.str "1.0"),
      ("bundles", Yaml.dict []),
      ("examples", Yaml.dict [("demo", Yaml.null)])]) = .error .typeError ∧
    _validate_examples (Yaml.dict [("demo", Yaml.null)]) [] = .error .typeError := by
  constructor <;> rfl

/-- C4 amended: the validation functions return error lists without raising
— and the entry point returns an `(ok, error_list)` pair — on documents of
safe shape: a mapping top level, hashable `requires`/`recommends`/`templates`
entries, example configurations that are mappings (a non-mapping `examples`
value itself is still safe), and a `metadata` value that is a mapping.  For
shapes outside this domain (e.g. a `null` example configuration or a `null`
metadata value) the validator can raise `TypeError`, as the counterexample
shows. -/
theorem C4_no_raise_on_safe_shapes :
    (∀ kvs, ∃ es, _validate_top_level_fields (Yaml.dict kvs) = .ok es) ∧
    (∀ (bundle_name : String) (c : Yaml) (names : List String),
      safeBundleConfig c = true →
      ∃ es, _validate_bundle_structure bundle_name c names = .ok es) ∧
    (∀ (e : Yaml) (names : List String), safeExamplesVal e = true →
      ∃ es, _validate_examples e names = .ok es) ∧
    (∀ m bs, ∃ es, _validate_metadata (Yaml.dict m) (Yaml.dict bs) = .ok es) ∧
    (∀ data, safeDoc data = true →
      ∃ p, validate_template_bundles data = .ok p) := by
  refine ⟨fun kvs => ⟨_, rfl⟩, validate_bundle_structure_safe_ok,
    validate_examples_safe_ok, validate_metadata_dict_ok, ?_⟩
  intro data h
  cases data with
  | dict kvs =>
    have h3 : ((match yamlLookup kvs "bundles" with
        | some (.dict bs) => bs.all (fun kv => safeBundleConfig kv.2)
        | _ => true) &&
      (match yamlLookup kvs "examples" with
        | some e => safeExamplesVal e
        | none => true) &&
      (match yamlLookup kvs "metadata" with
        | some (.dict _) => true
        | some _ => false
        | none => true)) = true := h
    rw [Bool.and_eq_true, Bool.and_eq_true] at h3
    obtain ⟨⟨hA, hB⟩, hC⟩ := h3
    obtain ⟨es, htlf⟩ : ∃ es, _validate_top_level_fields (Yaml.dict kvs) = .ok es :=
      ⟨_, rfl⟩
    cases es with
    | cons e es' => exact ⟨_, validate_top_fail_eq _ _ htlf (by simp)⟩
    | nil =>
      rcases hb : yamlLookup kvs "bundles" with _ | bv
      · have hgd : pyGetDefault (Yaml.dict kvs) "bundles" (Yaml.dict []) =
            .ok (Yaml.dict []) := by
          simp [pyGetDefault, hb]
        obtain ⟨e2, he2⟩ := examplesPart_safe_ok kvs
          (([] : List (String × Yaml)).map (fun kv => kv.1)) hB
        obtain ⟨e3, he3⟩ := metadataPart_safe_ok kvs [] hC
        exact ⟨_, validate_agg_eq kvs [] [] e2 e3 htlf hgd rfl he2 he3⟩
      · cases bv with
        | dict bs =>
          have hgd : pyGetDefault (Yaml.dict kvs) "bundles" (Yaml.dict []) =
              .ok (Yaml.dict bs) := by
            simp [pyGetDefault, hb]
          have hAll : ∀ kv ∈ bs, safeBundleConfig kv.2 = true := by
            rw [hb] at hA
            have hA' : bs.all (fun kv => safeBundleConfig kv.2) = true := hA
            exact fun kv hkv => List.all_eq_true.mp hA' kv hkv
          obtain ⟨e1, he1⟩ := validateAllBundles_safe_ok
            (bs.map (fun kv => kv.1)) bs hAll
          obtain ⟨e2, he2⟩ := examplesPart_safe_ok kvs
            (bs.map (fun kv => kv.1)) hB
          obtain ⟨e3, he3⟩ := metadataPart_safe_ok kvs bs hC
          exact ⟨_, validate_agg_eq kvs bs e1 e2 e3 htlf hgd he1 he2 he3⟩
        | null =>
          exact ⟨_, validate_bundles_nondict_eq kvs Yaml.null htlf
            (by simp [pyGetDefault, hb]) (fun bs hh => by cases hh)⟩
        | bool b =>
          exact ⟨_, validate_bundles_nondict_eq kvs (Yaml.bool b) htlf
            (by simp [pyGetDefault, hb]) (fun bs hh => by cases hh)⟩
        | int n =>
          exact ⟨_, validate_bundles_nondict_eq kvs (Yaml.int n) htlf
            (by simp [pyGetDefault, hb]) (fun bs hh => by cases hh)⟩
        | str s =>
          exact ⟨_, validate_bundles_nondict_eq kvs (Yaml.str s) htlf
            (by simp [pyGetDefault, hb]) (fun bs hh => by cases hh)⟩
        | list xs =>
          exact ⟨_, validate_bundles_nondict_eq kvs (Yaml.list xs) htlf
            (by simp [pyGetDefault, hb]) (fun bs hh => by cases hh)⟩
  | null => simp [safeDoc] at h
  | bool b => simp [safeDoc] at h
  | int n => simp [safeDoc] at h
  | str s => simp [safeDoc] at h
  | list xs => simp [safeDoc] at h

/-- C4 witness: the no-raise theorem applied to concrete safe shapes,
including a full document with bundles, examples and metadata. -/
theorem C4_no_raise_witness :
    (∃ es, _validate_bundle_structure "b"
      (Yaml.dict [("requires", Yaml.list [Yaml.int 3])]) [] = .ok es) ∧
    (∃ es, _validate_examples (Yaml.str "no") [] = .ok es) ∧
    (∃ p, validate_template_bundles (Yaml.dict [("version", Yaml.str "1.0"),
      ("bundles", Yaml.dict [("core", Yaml.dict [("description", Yaml.str "d"),
        ("files", Yaml.list []), ("requires", Yaml.list [Yaml.str "core"])])]),
      ("examples", Yaml.dict [("demo", Yaml.dict [("templates",
        Yaml.list [Yaml.str "core"])])]),
      ("metadata", Yaml.dict [("total_bundles", Yaml.int 1)])]) = .ok p) :=
  ⟨C4_no_raise_on_safe_shapes.2.1 "b" _ [] (by rfl),
   C4_no_raise_on_safe_shapes.2.2.1 _ [] (by rfl),
   C4_no_raise_on_safe_shapes.2.2.2.2 _ (by rfl)⟩

/-! ## Theorems: path normalization and the check loop -/

/-- Splitting never yields an empty group list. -/
theorem splitSlash_ne_nil (cs : List Char) : splitSlash cs ≠ [] := by
  induction cs with
  | nil => simp [splitSlash]
  | cons c rest ih =>
    rw [splitSlash]
    by_cases h : c = '/'
    · simp [h]
    · simp only [if_neg h]
      cases hg : splitSlash rest with
      | nil => simp
      | cons g gs => simp

/-- No group produced by splitting contains the separator. -/
theorem mem_splitSlash_no_slash (cs : List Char) :
    ∀ g ∈ splitSlash cs, '/' ∉ g := by
  induction cs with
  | nil =>
    intro g hg
    simp [splitSlash] at hg
    simp [hg]
  | cons c rest ih =>
    intro g hg
    rw [splitSlash] at hg
    by_cases h : c = '/'
    · rw [if_pos h] at hg
      rcases List.mem_cons.mp hg with h1 | h1
      · simp [h1]
      · exact ih g h1
    · rw [if_neg h] at hg
      cases hg' : splitSlash rest with
      | nil =>
        rw [hg'] at hg
        simp at hg
        subst hg
        simp only [List.mem_singleton]
        exact fun hh => h hh.symm
      | cons g0 gs =>
        rw [hg'] at hg
        rcases List.mem_cons.mp hg with h1 | h1
        · subst h1
          intro hmem
          rcases List.mem_cons.mp hmem with h2 | h2
          · exact h h2.symm
          · exact ih g0 (by rw [hg']; exact List.mem_cons_self _ _) h2
        · exact ih g (by rw [hg']; exact List.mem_cons_of_mem _ h1)

/-- A separator-free list splits to itself as the single group. -/
theorem splitSlash_of_no_slash (g : List Char) (h : '/' ∉ g) :
    splitSlash g = [g] := by
  induction g with
  | nil => rfl
  | cons c rest ih =>
    have hc : c ≠ '/' := fun hh => h (hh ▸ List.mem_cons_self c rest)
    rw [splitSlash, if_neg hc, ih (fun hm => h (List.mem_cons_of_mem _ hm))]

/-- Prepending a separator-free block extends the first group. -/
theorem splitSlash_append_of_no_slash (g : List Char) (h : '/' ∉ g)
    (cs : List Char) (hd : List Char) (tl : List (List Char))
    (heq : splitSlash cs = hd :: tl) :
    splitSlash (g ++ cs) = (g ++ hd) :: tl := by
  induction g with
  | nil => simpa using heq
  | cons c rest ih =>
    have hc : c ≠ '/' := fun hh => h (hh ▸ List.mem_cons_self c rest)
    have hrest := ih (fun hm => h (List.mem_cons_of_mem _ hm))
    rw [List.cons_append, splitSlash, if_neg hc, hrest]
    rfl

/-- Splitting is a left inverse of joining for nonempty, separator-free
group lists. -/
theorem splitSlash_joinSlash (comps : List (List Char)) (hne : comps ≠ [])
    (h : ∀ g ∈ comps, '/' ∉ g) : splitSlash (joinSlash comps) = comps := by
  induction comps with
  | nil => exact absurd rfl hne
  | cons g gs ih =>
    cases gs with
    | nil => exact splitSlash_of_no_slash g (h g (List.mem_cons_self _ _))
    | cons g1 gs1 =>
      have hjoin : joinSlash (g :: g1 :: gs1) = g ++ '/' :: joinSlash (g1 :: gs1) := rfl
      have ihr : splitSlash (joinSlash (g1 :: gs1)) = g1 :: gs1 :=
        ih (by simp) (fun x hx => h x (List.mem_cons_of_mem _ hx))
      have hrest : splitSlash ('/' :: joinSlash (g1 :: gs1)) =
          [] :: g1 :: gs1 := by
        rw [splitSlash, if_pos rfl, ihr]
      rw [hjoin]
      have := splitSlash_append_of_no_slash g (h g (List.mem_cons_self _ _))
        ('/' :: joinSlash (g1 :: gs1)) [] (g1 :: gs1) hrest
      simpa using this

/-- Joining a nonempty group list starts with its first group. -/
theorem joinSlash_cons_ex (g : List Char) (gs : List (List Char)) :
    ∃ t, joinSlash (g :: gs) = g ++ t := by
  cases gs with
  | nil => exact ⟨[], by simp [joinSlash]⟩
  | cons g1 gs1 => exact ⟨'/' :: joinSlash (g1 :: gs1), rfl⟩

/-- A list starting with a non-separator has no leading separators. -/
theorem leadSlashes_head_ne (c : Char) (t : List Char) (h : c ≠ '/') :
    leadSlashes (c :: t) = 0 := by
  simp [leadSlashes, h]

/-- The rendered components of a normalized path start with a
non-separator. -/
theorem leadSlashes_joinSlash_zero (comps : List (List Char))
    (hkeep : ∀ g ∈ comps, keepComp g = true) (hns : ∀ g ∈ comps, '/' ∉ g)
    (hne : comps ≠ []) : leadSlashes (joinSlash comps) = 0 := by
  cases comps with
  | nil => exact absurd rfl hne
  | cons g gs =>
    obtain ⟨t, ht⟩ := joinSlash_cons_ex g gs
    have hk := hkeep g (List.mem_cons_self _ _)
    have hn := hns g (List.mem_cons_self _ _)
    cases g with
    | nil => simp [keepComp] at hk
    | cons c g' =>
      have hc : c ≠ '/' := fun hh => hn (hh ▸ List.mem_cons_self c g')
      rw [ht]
      exact leadSlashes_head_ne c (g' ++ t) hc

/-- `rootOf` takes one of three values. -/
theorem rootOf_cases (cs : List Char) :
    rootOf cs = [] ∨ rootOf cs = ['/'] ∨ rootOf cs = ['/', '/'] := by
  rw [rootOf]
  split_ifs <;> simp

/-- A rendered normalized path (a valid root followed by kept, separator-free
components) is a fixed point of normalization. -/
theorem normalizeChars_fixpoint (R : List Char) (C : List (List Char))
    (hR : R = [] ∨ R = ['/'] ∨ R = ['/', '/'])
    (hkeep : ∀ g ∈ C, keepComp g = true)
    (hns : ∀ g ∈ C, '/' ∉ g)
    (hnontriv : ¬(R = [] ∧ C = [])) :
    normalizeChars (R ++ joinSlash C) = R ++ joinSlash C := by
  have hsplit : (splitSlash (R ++ joinSlash C)).filter keepComp = C := by
    cases C with
    | nil =>
      rcases hR with h | h | h
      · exact absurd ⟨h, rfl⟩ hnontriv
      · subst h; rfl
      · subst h; rfl
    | cons g gs =>
      have hsj : splitSlash (joinSlash (g :: gs)) = g :: gs :=
        splitSlash_joinSlash (g :: gs) (by simp) hns
      have hfilter : (g :: gs).filter keepComp = g :: gs :=
        List.filter_eq_self.mpr hkeep
      rcases hR with h | h | h <;> subst h
      · simpa [hsj] using hfilter
      · show ((splitSlash ('/' :: joinSlash (g :: gs))).filter keepComp) = _
        rw [splitSlash, if_pos rfl, hsj, List.filter_cons]
        simpa [keepComp] using hfilter
      · show ((splitSlash ('/' :: '/' :: joinSlash (g :: gs))).filter keepComp) = _
        rw [splitSlash, if_pos rfl, splitSlash, if_pos rfl, hsj,
          List.filter_cons, List.filter_cons]
        simpa [keepComp] using hfilter
  have hroot : rootOf (R ++ joinSlash C) = R := by
    cases C with
    | nil =>
      rcases hR with h | h | h
      · exact absurd ⟨h, rfl⟩ hnontriv
      · subst h; rfl
      · subst h; rfl
    | cons g gs =>
      have hlz : leadSlashes (joinSlash (g :: gs)) = 0 :=
        leadSlashes_joinSlash_zero (g :: gs) hkeep hns (by simp)
      rcases hR with h | h | h <;> subst h
      · simp [rootOf, hlz]
      · show rootOf ('/' :: joinSlash (g :: gs)) = _
        simp [rootOf, leadSlashes, hlz]
      · show rootOf ('/' :: '/' :: joinSlash (g :: gs)) = _
        simp [rootOf, leadSlashes, hlz]
  rw [normalizeChars, hsplit, hroot, if_neg hnontriv]

/-- Normalization is idempotent at the character level. -/
theorem normalizeChars_idem (cs : List Char) :
    normalizeChars (normalizeChars cs) = normalizeChars cs := by
  by_cases hA : rootOf cs = [] ∧ (splitSlash cs).filter keepComp = []
  · have h1 : normalizeChars cs = ['.'] := by rw [normalizeChars, if_pos hA]
    rw [h1]
    rfl
  · have h1 : normalizeChars cs =
        rootOf cs ++ joinSlash ((splitSlash cs).filter keepComp) := by
      rw [normalizeChars, if_neg hA]
    have hkeep : ∀ g ∈ (splitSlash cs).filter keepComp, keepComp g = true :=
      fun g hg => List.of_mem_filter hg
    have hns : ∀ g ∈ (splitSlash cs).filter keepComp, '/' ∉ g :=
      fun g hg => mem_splitSlash_no_slash cs g (List.mem_of_mem_filter hg)
    rw [h1]
    exact normalizeChars_fixpoint (rootOf cs) ((splitSlash cs).filter keepComp)
      (rootOf_cases cs) hkeep hns hA

/-- Normalization is idempotent at the string level. -/
theorem normalizePath_idem (s : String) :
    normalizePath (normalizePath s) = normalizePath s := by
  show String.mk (normalizeChars (String.mk (normalizeChars s.data)).data) =
    String.mk (normalizeChars s.data)
  rw [show (String.mk (normalizeChars s.data)).data = normalizeChars s.data from rfl,
    normalizeChars_idem]

/-- The violation loop of `main()` is a filter-and-map: keep (in input
order) the candidates whose normalization is registered and that the
modification query reports, record their normalized form. -/
theorem violations_foldl_eq (managed_files : List String)
    (modified : String → Bool) (changed_files : List String)
    (acc : List String) :
    changed_files.foldl (fun acc file_path =>
      let normalized_path := normalizePath file_path
      if managed_files.contains normalized_path then
        if modified file_path then acc ++ [normalized_path] else acc
      else acc) acc =
    acc ++ (changed_files.filter (fun p =>
      managed_files.contains (normalizePath p) && modified p)).map normalizePath := by
  induction changed_files generalizing acc with
  | nil => simp
  | cons p rest ih =>
    rw [List.foldl_cons, List.filter_cons]
    show List.foldl (fun acc file_path =>
        let normalized_path := normalizePath file_path
        if managed_files.contains normalized_path then
          if modified file_path then acc ++ [normalized_path] else acc
        else acc)
      (if managed_files.contains (normalizePath p) then
        if modified p then acc ++ [normalizePath p] else acc
      else acc) rest = _
    by_cases h1 : managed_files.contains (normalizePath p) = true
    · rw [if_pos h1]
      by_cases h2 : modified p = true
      · rw [if_pos h2, ih, if_pos (by rw [h1, h2]; rfl)]
        rw [List.map_cons, List.append_assoc, List.singleton_append]
      · rw [if_neg h2, ih,
          if_neg (fun hc => h2 (((Bool.and_eq_true _ _).mp hc).2))]
    · rw [if_neg h1, ih,
        if_neg (fun hc => h1 (((Bool.and_eq_true _ _).mp hc).1))]

/-- C7: when no candidate path's normalized form is in the loaded registry,
the check reports no violations and exits 0, for every registry contents and
every behavior of the modification queries. -/
theorem C7_disjoint_changes_pass (changed_files : List String)
    (historyLines : Option (List String)) (modified : String → Bool)
    (h : ∀ p ∈ changed_files,
      normalizePath p ∉ load_managed_files historyLines) :
    mainCheck changed_files historyLines modified = ([], 0) := by
  rw [mainCheck]
  by_cases hc : changed_files.isEmpty
  · rw [if_pos hc]
  · rw [if_neg hc]
    by_cases hm : (load_managed_files historyLines).isEmpty
    · rw [if_pos hm]
    · rw [if_neg hm, violations_foldl_eq]
      have hfilter : changed_files.filter (fun p =>
          (load_managed_files historyLines).contains (normalizePath p) &&
            modified p) = [] := by
        rw [List.filter_eq_nil_iff]
        intro p hp
        have := h p hp
        simp [List.elem_iff, this]
      rw [hfilter]
      rfl

/-- C7 witness: a change-set disjoint from a non-empty registry passes even
though the modification oracle reports everything modified. -/
theorem C7_disjoint_changes_pass_witness :
    mainCheck ["src/app.py"] (some ["README.md"]) (fun _ => true) = ([], 0) :=
  C7_disjoint_changes_pass ["src/app.py"] (some ["README.md"]) (fun _ => true)
    (by decide)

/-- C8: an absent manifest loads as the empty registry and the check exits 0
with no violations for every change-set; the same holds for a manifest of
blank and `#`-comment lines only. -/
theorem C8_empty_registry_passes (changed_files : List String)
    (modified : String → Bool) (lines : List String)
    (h : ∀ l ∈ lines, pyStrip l = "" ∨ pyStartsWith (pyStrip l) "#" = true) :
    load_managed_files none = [] ∧
    mainCheck changed_files none modified = ([], 0) ∧
    load_managed_files (some lines) = [] ∧
    mainCheck changed_files (some lines) modified = ([], 0) := by
  have hload : load_managed_files (some lines) = [] := by
    rw [load_managed_files, List.filter_eq_nil_iff]
    intro x hx
    obtain ⟨l, hl, hxl⟩ := List.mem_map.mp hx
    subst hxl
    rcases h l hl with h1 | h1 <;> simp [h1]
  refine ⟨rfl, ?_, hload, ?_⟩
  · rw [mainCheck]
    by_cases hc : changed_files.isEmpty
    · rw [if_pos hc]
    · rw [if_neg hc]
      rfl
  · rw [mainCheck]
    by_cases hc : changed_files.isEmpty
    · rw [if_pos hc]
    · rw [if_neg hc, hload]
      rfl

/-- C8 witness: the theorem applied to a manifest of blank and comment lines
and a non-empty change-set whose paths the oracle reports modified. -/
theorem C8_empty_registry_passes_witness :
    load_managed_files none = [] ∧
    mainCheck ["a.txt"] none (fun _ => true) = ([], 0) ∧
    load_managed_files (some ["", "  # note", "# x", "   "]) = [] ∧
    mainCheck ["a.txt"] (some ["", "  # note", "# x", "   "]) (fun _ => true) =
      ([], 0) :=
  C8_empty_registry_passes ["a.txt"] (fun _ => true)
    ["", "  # note", "# x", "   "] (by decide)

/-- C10: registry membership is asymmetric — candidates are normalized
before the lookup while registry lines are kept verbatim after stripping.
Every reported violation is the normalized form of some candidate and is
itself a registry entry (first conjunct); since normalization is idempotent,
a registry line that is not already in normalized form can never be the
normalization of any candidate (second conjunct) and is never reported
(third conjunct); in particular `./foo` and `a//b` are not normal forms
(fourth conjunct). -/
theorem C10_normalization_asymmetry (changed_files : List String)
    (historyLines : Option (List String)) (modified : String → Bool) :
    (∀ v ∈ (mainCheck changed_files historyLines modified).1,
      ∃ p, p ∈ changed_files ∧ v = normalizePath p ∧
        v ∈ load_managed_files historyLines) ∧
    (∀ line, normalizePath line ≠ line → ∀ p, normalizePath p ≠ line) ∧
    (∀ line, normalizePath line ≠ line →
      line ∉ (mainCheck changed_files historyLines modified).1) ∧
    (normalizePath "./foo" ≠ "./foo" ∧ normalizePath "a//b" ≠ "a//b") := by
  have hnever : ∀ line, normalizePath line ≠ line → ∀ p, normalizePath p ≠ line := by
    intro line hne p heq
    apply hne
    have hidem := normalizePath_idem p
    rw [heq] at hidem
    exact hidem
  have hmem : ∀ v ∈ (mainCheck changed_files historyLines modified).1,
      ∃ p, p ∈ changed_files ∧ v = normalizePath p ∧
        v ∈ load_managed_files historyLines := by
    intro v hv
    rw [mainCheck] at hv
    by_cases hc : changed_files.isEmpty
    · rw [if_pos hc] at hv
      simp at hv
    · rw [if_neg hc] at hv
      by_cases hm : (load_managed_files historyLines).isEmpty
      · rw [if_pos hm] at hv
        simp at hv
      · rw [if_neg hm] at hv
        set vs := changed_files.foldl (fun acc file_path =>
          let normalized_path := normalizePath file_path
          if (load_managed_files historyLines).contains normalized_path then
            if modified file_path then acc ++ [normalized_path] else acc
          else acc) [] with hvs
        have hvs2 : vs = (changed_files.filter (fun p =>
            (load_managed_files historyLines).contains (normalizePath p) &&
              modified p)).map normalizePath := by
          rw [hvs, violations_foldl_eq]
          rfl
        by_cases hemp : vs.isEmpty
        · rw [if_pos hemp] at hv
          simp at hv
        · rw [if_neg hemp] at hv
          simp only at hv
          rw [hvs2] at hv
          obtain ⟨p, hp, hpv⟩ := List.mem_map.mp hv
          have hp1 := List.mem_filter.mp hp
          have hp2 := (Bool.and_eq_true _ _).mp hp1.2
          refine ⟨p, hp1.1, hpv.symm, ?_⟩
          rw [← hpv]
          exact (List.elem_iff).mp hp2.1
  refine ⟨hmem, hnever, ?_, by decide, by decide⟩
  intro line hne hmem2
  obtain ⟨p, _, hpv, _⟩ := hmem line hmem2
  exact hnever line hne p hpv.symm

/-- C10 witness: a manifest line `./foo` is never reported even when the
change-set contains the literal path `./foo` and the modification oracle
reports everything modified; and a concrete reported violation is the
normalized form of a candidate and a registry entry. -/
theorem C10_normalization_asymmetry_witness :
    ("./foo" ∉ (mainCheck ["./foo"] (some ["./foo"]) (fun _ => true)).1) ∧
    (∃ p, p ∈ ["x"] ∧ "x" = normalizePath p ∧
      "x" ∈ load_managed_files (some ["x"])) :=
  ⟨(C10_normalization_asymmetry ["./foo"] (some ["./foo"]) (fun _ => true)).2.2.1
      "./foo" (by decide),
   (C10_normalization_asymmetry ["x"] (some ["x"]) (fun _ => true)).1
      "x" (by decide)⟩
